import Mathlib

/-!
Shallow embedding of `src/lmlevelnames/level_reader.c` (a ROM level-name
table extractor) together with theorems checking the specification's
claims about it.

Modelling conventions:
* C `int`/`long` values are modelled as `Int`; file bytes as `Nat` (< 256).
* A ROM file is a `List Nat` of its bytes; `fgetc` past the end is `EOF`,
  modelled by `Option`/`-1` exactly where the C routine returns `EOF`.
* `abort()` / `exit(1)` paths are modelled with `Option`/dedicated result
  constructors, so a "fatal" path is visible in the type.
* The external fallback tile table `default_tile_map.h` is not part of the
  sources; functions that consult it take it as an explicit parameter
  `fallback : Int → Nat`.
-/

/-- Bit flag for a copier (SMC) header, from `const int BV_SMCHEADER = 0x1`. -/
def BV_SMCHEADER : Int := 0x1

/-- Bit flag for LoROM mapping, from `const int BV_LOROM = 0x2`. -/
def BV_LOROM : Int := 0x2

/-- Embedding of `j_to_levelid`.  The C function returns `j` for
`0x0 <= j <= 0x24`, `0x100 + j - 0x24` for `0x24 < j <= 0x5F`, and calls
`abort()` otherwise; the abort is modelled as `none`. -/
def j_to_levelid (j : Int) : Option Int :=
  if j ≥ 0x0 ∧ j ≤ 0x24 then some j
  else if j > 0x24 ∧ j ≤ 0x5F then some (0x100 + j - 0x24)
  else none

/-- Byte string of a Lean string literal (ASCII code points), used to embed
the C string literals of `vanilla_name`. -/
def strB (s : String) : List Nat := s.toList.map Char.toNat

/-- Embedding of `vanilla_name`: the static LevelID → factory-default-name
table.  The C function returns `NULL` (here `none`) for ids without a case. -/
def vanilla_name (j : Int) : Option (List Nat) :=
  if j = 0x001 then some (strB "MY SECRET 1")
  else if j = 0x002 then some (strB "my secret 2")
  else if j = 0x003 then some (strB "really cool secret")
  else if j = 0x004 then some (strB "not donut mansion")
  else if j = 0x005 then some (strB "plains de donut 3")
  else if j = 0x006 then some (strB "plain donut 3")
  else if j = 0x007 then some (strB "Morton place")
  else if j = 0x008 then some (strB "green house")
  else if j = 0x009 then some (strB "plain donut 2")
  else if j = 0x00A then some (strB "secret donut 1")
  else if j = 0x00B then some (strB "fortress de vanill")
  else if j = 0x00C then some (strB "bridge de beur 1")
  else if j = 0x00D then some (strB "bridge de beur 2")
  else if j = 0x00E then some (strB "ludwig hidoeut")
  else if j = 0x00F then some (strB "cheesy bridge")
  else if j = 0x010 then some (strB "mountain of cookie")
  else if j = 0x011 then some (strB "pepsi lake")
  else if j = 0x012 then some (strB "yellow star rod")
  else if j = 0x013 then some (strB "super secret donut")
  else if j = 0x014 then some (strB "Yellow custom pala")
  else if j = 0x015 then some (strB "DONUT PLAINS 1")
  else if j = 0x016 then some (strB "STAR ROAD")
  else if j = 0x017 then some (strB "#2 MORTON\x27S PLAINS")
  else if j = 0x018 then some (strB "SUNKEN GHOST SHIP")
  else if j = 0x019 then some (strB "#2 MORTON\x27S PLAINS")
  else if j = 0x01A then some (strB "#6 WENDY\x27S CASTLE")
  else if j = 0x01B then some (strB "CHOCOLATE FORTRESS")
  else if j = 0x01C then some (strB "CHOCOLATE ISLAND 5")
  else if j = 0x01D then some (strB "CHOCOLATE ISLAND 4")
  else if j = 0x01E then some (strB "STAR ROAD")
  else if j = 0x01F then some (strB "FOREST FORTRESS")
  else if j = 0x020 then some (strB "#5 ROY\x27S CASTLE")
  else if j = 0x021 then some (strB "CHOCO-GHOST HOUSE")
  else if j = 0x022 then some (strB "CHOCOLATE ISLAND 1")
  else if j = 0x023 then some (strB "CHOCOLATE ISLAND 3")
  else if j = 0x024 then some (strB "CHOCOLATE ISLAND 2")
  else if j = 0x101 then some (strB "#1 IGGY\x27S CASTLE")
  else if j = 0x102 then some (strB "YOSHI\x27S ISLAND 4")
  else if j = 0x103 then some (strB "YOSHI\x27S ISLAND 3")
  else if j = 0x104 then some (strB "YOSHI\x27S HOUSE")
  else if j = 0x105 then some (strB "YOSHI\x27S ISLAND 1")
  else if j = 0x106 then some (strB "YOSHI\x27S ISLAND 2")
  else if j = 0x107 then some (strB "VANILLA GHOST HOUS")
  else if j = 0x108 then some (strB "STAR ROAD")
  else if j = 0x109 then some (strB "VANILLA SECRET 1")
  else if j = 0x10A then some (strB "VANILLA DOME 3")
  else if j = 0x10B then some (strB "DONUT SECRET 2")
  else if j = 0x10C then some (strB "STAR ROAD")
  else if j = 0x10D then some (strB "FRONT DOOR")
  else if j = 0x10E then some (strB "BACK DOOR")
  else if j = 0x10F then some (strB "VALLEY OF BOWSER 4")
  else if j = 0x110 then some (strB "#7 LARRY\x27S CASTLE")
  else if j = 0x111 then some (strB "VALLEY FORTRESS")
  else if j = 0x112 then some (strB "")
  else if j = 0x113 then some (strB "VALLEY OF BOWSER 3")
  else if j = 0x114 then some (strB "VALLEY GHOST HOUSE")
  else if j = 0x115 then some (strB "VALLEY OF BOWSER 2")
  else if j = 0x116 then some (strB "VALLEY OF BOWSER 1")
  else if j = 0x117 then some (strB "CHOCOLATE SECRET")
  else if j = 0x118 then some (strB "VANILLA DOME 2")
  else if j = 0x119 then some (strB "VANILLA DOME 4")
  else if j = 0x11A then some (strB "VANILLA DOME 1")
  else if j = 0x11B then some (strB "RED SWITCH PALACE")
  else if j = 0x11C then some (strB "#3 LEMMY\x27S CASTLE")
  else if j = 0x11D then some (strB "FOREST GHOST HOUSE")
  else if j = 0x11E then some (strB "FOREST OFILLUSION")
  else if j = 0x11F then some (strB "FOREST OFILLUSION")
  else if j = 0x120 then some (strB "FOREST OFILLUSION")
  else if j = 0x121 then some (strB "BLUE SWITCH PALACE")
  else if j = 0x122 then some (strB "FOREST SECRET AREA")
  else if j = 0x123 then some (strB "FOREST OFILLUSION")
  else if j = 0x124 then some (strB "STAR ROAD")
  else if j = 0x125 then some (strB "FUNKY")
  else if j = 0x126 then some (strB "OUTRAGEOUS")
  else if j = 0x127 then some (strB "MONDO")
  else if j = 0x128 then some (strB "GROOVY")
  else if j = 0x129 then some (strB "STAR ROAD")
  else if j = 0x12A then some (strB "GNARLY")
  else if j = 0x12B then some (strB "TUBULAR")
  else if j = 0x12C then some (strB "WAY COOL")
  else if j = 0x12D then some (strB "AWESOME")
  else if j = 0x12E then some (strB "STAR ROAD")
  else if j = 0x12F then some (strB "STAR ROAD")
  else if j = 0x130 then some (strB "STAR WORLD 2")
  else if j = 0x131 then some (strB "STAR ROAD")
  else if j = 0x132 then some (strB "STAR WORLD 3")
  else if j = 0x133 then some (strB "STAR ROAD")
  else if j = 0x134 then some (strB "STAR WORLD 1")
  else if j = 0x135 then some (strB "STAR WORLD 4")
  else if j = 0x136 then some (strB "STAR WORLD 5")
  else if j = 0x137 then some (strB "STAR ROAD")
  else if j = 0x138 then some (strB "STAR ROAD")
  else none

/-- Lowercase hexadecimal digit byte, as produced by `sprintf` `%x`. -/
def hex_lower_digit (d : Nat) : Nat := if d < 10 then 48 + d else 87 + d

/-- The four bytes `sprintf("%04x", n)` produces for `n < 0x10000`
(lowercase, zero-padded to width 4). -/
def hex4_lower (n : Nat) : List Nat :=
  [hex_lower_digit (n / 4096 % 16), hex_lower_digit (n / 256 % 16),
   hex_lower_digit (n / 16 % 16), hex_lower_digit (n % 16)]

/-- Bytes the escaping loop of `escape_json_string_static` appends for one
input byte `c`.  The C variable `c` has type (signed) `char`, so the
control-character test `c >= 0x00 && c <= 0x1F` is true exactly for byte
values `0x00`-`0x1F` (bytes `0x80`-`0xFF` are negative as `char` and fall
through unchanged), which on the byte domain is the test `c ≤ 0x1F`. -/
def esc_byte (c : Nat) : List Nat :=
  if c = 0x22 then [0x5C, 0x22]
  else if c = 0x5C then [0x5C, 0x5C]
  else if c = 0x08 then [0x5C, 0x62]
  else if c = 0x0C then [0x5C, 0x66]
  else if c = 0x0A then [0x5C, 0x6E]
  else if c = 0x0D then [0x5C, 0x72]
  else if c = 0x09 then [0x5C, 0x74]
  else if c ≤ 0x1F then 0x5C :: 0x75 :: hex4_lower c
  else [c]

/-- Replace the first byte of a buffer suffix with a NUL, modelling one
`output[idx] = 0` store at the boundary between written and untouched
buffer contents. -/
def set0 : List Nat → List Nat
  | [] => []
  | _ :: t => 0 :: t

/-- Loop of `escape_json_string_static`.  The output buffer is represented
as the written prefix `done` (so `output_idx = done.length`) followed by
the untouched suffix `rest`; `bufSize` is `output_buffer_size`.  Mirrors
the C loop: a generic `output_idx + 1 >= size` check per character, then a
branch-specific `+2`/`+6` check; `sprintf("\u%04x", c)` writes six bytes
plus its own NUL terminator.  Returns the C `int` result (`-1` on a
too-small buffer, the final `output_idx` on success) and the buffer. -/
def esc_go (bufSize : Nat) : List Nat → List Nat → List Nat → Int × List Nat
  | [], done, rest => ((done.length : Int), done ++ set0 rest)
  | c :: inp, done, rest =>
    if done.length + 1 ≥ bufSize then (-1, done ++ rest)
    else if c = 0x22 ∨ c = 0x5C ∨ c = 0x08 ∨ c = 0x0C ∨ c = 0x0A ∨ c = 0x0D ∨ c = 0x09 then
      if done.length + 2 ≥ bufSize then (-1, done ++ rest)
      else esc_go bufSize inp (done ++ esc_byte c) (rest.drop 2)
    else if c ≤ 0x1F then
      if done.length + 6 ≥ bufSize then (-1, done ++ rest)
      else esc_go bufSize inp (done ++ esc_byte c) (set0 (rest.drop 6))
    else esc_go bufSize inp (done ++ esc_byte c) (rest.drop 1)

/-- Embedding of `escape_json_string_static`.  `input` is the NUL-free byte
content of the C input string, `buf` the output buffer contents; returns
the C result code together with the final buffer contents. -/
def escape_json_string_static (input buf : List Nat) : Int × List Nat :=
  if buf.length = 0 then (-1, buf)
  else esc_go buf.length input [] buf

/-- Embedding of `lorom_to_offset`.  Direct transcription of the C body
(`bank_n = addr >> 16`, `bank_a = addr & 0xFFFF`; the `return -1` after the
first `return` in the C source is dead code). -/
def lorom_to_offset (addr : Int) : Int :=
  let bank_n : Int := addr >>> (16 : Int)
  let bank_a : Int := Int.land addr 0xFFFF
  if addr < 0x8000 then bank_n * 0x8000 + Int.land bank_a 0x7FFF
  else Int.lor ((Int.land bank_n 0x7F) <<< (15 : Int)) (Int.land bank_a 0x7FFF)

/-- State of one `struct openrom_h` registry entry: the header adjustment
`adj` and the `modes` flag word. -/
structure OpenRomH where
  adj : Int
  modes : Int
deriving DecidableEq

/-- One byte of the ROM file at a physical offset: `fseek` to a negative
offset fails and `fgetc` past the end returns `EOF`; both give `none`. -/
def rom_byte? (rom : List Nat) (off : Int) : Option Nat :=
  if h : 0 ≤ off ∧ off.toNat < rom.length then some (rom.get ⟨off.toNat, h.2⟩)
  else none

/-- Embedding of `read1`: translate the address when the handle is not in
`direct` mode (LoROM mapping if flagged, then the `addr == -1` validity
check, then the header adjustment) and read one byte, `EOF = -1` on
failure. -/
def read1 (h : OpenRomH) (rom : List Nat) (orig_addr : Int) (direct : Bool) : Int :=
  let addr : Int :=
    if ¬direct ∧ Int.land h.modes BV_LOROM ≠ 0 then lorom_to_offset orig_addr
    else orig_addr
  if ¬direct ∧ addr = -1 then -1
  else
    let addr2 : Int := if ¬direct ∧ h.adj ≠ 0 then addr + h.adj else addr
    match rom_byte? rom addr2 with
    | some b => (b : Int)
    | none => -1

/-- The body of `read1` with the `addr == -1` error branch removed, used to
state that this branch is unreachable. -/
def read1_unchecked (h : OpenRomH) (rom : List Nat) (orig_addr : Int) (direct : Bool) : Int :=
  let addr : Int :=
    if ¬direct ∧ Int.land h.modes BV_LOROM ≠ 0 then lorom_to_offset orig_addr
    else orig_addr
  let addr2 : Int := if ¬direct ∧ h.adj ≠ 0 then addr + h.adj else addr
  match rom_byte? rom addr2 with
  | some b => (b : Int)
  | none => -1

/-- Physical offset at which `read3` starts reading: LoROM translation when
flagged (note: `read3` has no `addr == -1` check), then header adjustment. -/
def read3_addr (h : OpenRomH) (addr : Int) (direct : Bool) : Int :=
  let a : Int :=
    if ¬direct ∧ Int.land h.modes BV_LOROM ≠ 0 then lorom_to_offset addr
    else addr
  if ¬direct ∧ h.adj ≠ 0 then a + h.adj else a

/-- Embedding of `read3`: reads three consecutive bytes `a`, `b`, `c` and
composes `(c & 0xFF) << 16 | (b & 0xFF) << 8 | (a & 0xFF)`; any `EOF`
aborts with `EOF`.  In the composing branch all three C `int` values are
bytes `0`-`255`, so the composition is written on `Nat`. -/
def read3 (h : OpenRomH) (rom : List Nat) (addr : Int) (direct : Bool) : Int :=
  let t := read3_addr h addr direct
  match rom_byte? rom t with
  | none => -1
  | some a =>
    match rom_byte? rom (t + 1) with
    | none => -1
    | some b =>
      match rom_byte? rom (t + 2) with
      | none => -1
      | some c =>
        (((((c &&& 0xFF) <<< 16) ||| ((b &&& 0xFF) <<< 8)) ||| (a &&& 0xFF) : Nat) : Int)

/-- Embedding of `smw_character_lookup`: the explicit `switch` table; any
other code falls through to the external `tile_to_ascii_byte` table, which
is not among the sources and is taken as the parameter `fallback`. -/
def smw_character_lookup (fallback : Int → Nat) (c : Int) : Nat :=
  if c = 0x00 then 65 else if c = 0x01 then 66 else if c = 0x02 then 67
  else if c = 0x03 then 68 else if c = 0x04 then 69 else if c = 0x05 then 70
  else if c = 0x06 then 71 else if c = 0x07 then 72 else if c = 0x08 then 73
  else if c = 0x09 then 74 else if c = 0x0A then 75 else if c = 0x0B then 76
  else if c = 0x0C then 77 else if c = 0x0D then 78 else if c = 0x0E then 79
  else if c = 0x0F then 80 else if c = 0x10 then 81 else if c = 0x11 then 82
  else if c = 0x12 then 83 else if c = 0x13 then 84 else if c = 0x14 then 85
  else if c = 0x15 then 86 else if c = 0x16 then 87 else if c = 0x17 then 88
  else if c = 0x18 then 89 else if c = 0x19 then 90
  else if c = 0x1A then 33 else if c = 0x1B then 46 else if c = 0x1C then 45
  else if c = 0x1D then 44 else if c = 0x1E then 63 else if c = 0x1F then 32
  else if c = 0x5A then 35
  else if c = 0x5B then 40 else if c = 0x5C then 41
  else if c = 0x64 then 49 else if c = 0x65 then 50 else if c = 0x66 then 51
  else if c = 0x67 then 52 else if c = 0x68 then 53 else if c = 0x69 then 54
  else if c = 0x6A then 55 else if c = 0x6B then 56 else if c = 0x6C then 57
  else if c = 0x9F then 32 else if c = 0xFC then 32
  else fallback c

/-- Content of a NUL-terminated C string stored in a byte buffer: the bytes
up to (excluding) the first NUL. -/
def c_str (l : List Nat) : List Nat := l.takeWhile (fun b => b ≠ 0)

/-- Embedding of the trailing-space trim loop in `main`:
`while (strlen(xb) > 0 && strlen(xb) < 19 && xb[strlen(xb)-1] == ' ')`
chop the last character. -/
def trim_trailing (s : List Nat) : List Nat :=
  if 0 < s.length ∧ s.length < 19 ∧ s.getLast? = some 32 then
    trim_trailing s.dropLast
  else s
termination_by s.length
decreasing_by simp only [List.length_dropLast]; omega

/-- ASCII `tolower` as used by `strcasecmp` in the C locale. -/
def tolower_byte (b : Nat) : Nat := if 65 ≤ b ∧ b ≤ 90 then b + 32 else b

/-- Whether `strcasecmp` returns `0` on two NUL-free byte strings: equality
after folding each byte with `tolower`. -/
def strcase_eq (a b : List Nat) : Bool :=
  a.map tolower_byte = b.map tolower_byte

/-- Embedding of the vanilla-name substitution in `main`: when
`vanilla_name(levelid)` exists and `strcasecmp` finds a case-insensitive
match, the buffer becomes the one-character string `"-"`. -/
def apply_vanilla (levelid : Int) (xb : List Nat) : List Nat :=
  match vanilla_name levelid with
  | some v => if strcase_eq xb v then [45] else xb
  | none => xb

/-- Uppercase hexadecimal digit byte, as produced by `printf` `%X`. -/
def hex_upper_digit (d : Nat) : Nat := if d < 10 then 48 + d else 55 + d

/-- Uppercase hexadecimal digits of `n` (natural width, at least one
digit), most significant first. -/
def toHexU (n : Nat) : List Nat :=
  if n < 16 then [hex_upper_digit n]
  else toHexU (n / 16) ++ [hex_upper_digit (n % 16)]
termination_by n
decreasing_by omega

/-- The bytes `printf("%.3X", n)` produces: uppercase hex digits,
zero-padded on the left to at least three digits. -/
def hex3X (n : Nat) : List Nat :=
  List.replicate (3 - (toHexU n).length) 48 ++ toHexU n

/-- One emitted JSON line of the extractor: the 3-hex-digit key, the
escaped name as printed from the `x0` buffer, and whether a trailing comma
is printed (`need_comma`). -/
structure EmitLine where
  key : List Nat
  name : List Nat
  comma : Bool
deriving DecidableEq

/-- The 18 decoded bytes of slot `j`: for `i = 0..17` read
`levelnames_addr + 19*j + i` through `read1` and decode through
`smw_character_lookup`; the store `xb[i] = (char)...` truncates to a
byte. -/
def decode_name (fallback : Int → Nat) (rom : List Nat) (h : OpenRomH)
    (base : Int) (j : Nat) : List Nat :=
  (List.range 18).map
    (fun i => smw_character_lookup fallback (read1 h rom (base + 19 * (j : Int) + (i : Int)) false) % 256)

/-- One iteration of the per-slot loop in `main` for slot `j`: decode
into `xb`, trim, substitute the vanilla sentinel, escape into the shared
`x0` buffer (the C return code of the escaper is ignored, so a failed
escape leaves `x0` with whatever the partial write produced), and record
the printed line.  The `abort()` inside `j_to_levelid` propagates as
`none`. -/
def emit_step (fallback : Int → Nat) (rom : List Nat) (h : OpenRomH) (base : Int)
    (st : List Nat × List EmitLine) (j : Nat) : Option (List Nat × List EmitLine) :=
  match j_to_levelid (j : Int) with
  | none => none
  | some id =>
    let xb := trim_trailing (c_str (decode_name fallback rom h base j))
    let nm := apply_vanilla id xb
    let x0 := (escape_json_string_static nm st.1).2
    some (x0, st.2 ++ [⟨hex3X id.toNat, c_str x0, j ≠ 95⟩])

/-- The `for (j = 1; j < 96; j++)` emission loop of `main`, starting from
the zero-initialised 100-byte `x0` buffer. -/
def emit_all (fallback : Int → Nat) (rom : List Nat) (h : OpenRomH) (base : Int) :
    Option (List EmitLine) :=
  Option.map Prod.snd
    (List.foldlM (emit_step fallback rom h base) (List.replicate 100 0, [])
      ((List.range 95).map (· + 1)))

/-- Result of the table-location check in `main`. -/
inductive LocateResult where
  | ok (base : Int)
  | unsupported
deriving DecidableEq

/-- Embedding of the table-location step of `main`: if `read1(fp, 0x049549)`
equals `0x22`, the base is `read3(fp, 0x03BB57)`; otherwise `main` prints a
diagnostic and calls `exit(1)`. -/
def locate_levelnames (h : OpenRomH) (rom : List Nat) : LocateResult :=
  if read1 h rom 0x049549 false = 0x22 then .ok (read3 h rom 0x03BB57 false)
  else .unsupported

/-- Observable outcome of the extraction part of `main`:
the emitted lines, the `exit(1)` taken on an unsupported layout, or the
(unreachable) `abort()` from `j_to_levelid`. -/
inductive MainResult where
  | ok (lines : List EmitLine)
  | unsupportedLayout
  | aborted
deriving DecidableEq

/-- Extraction pipeline of `main` after handle registration and mode
detection. -/
def level_reader_main (fallback : Int → Nat) (rom : List Nat) (h : OpenRomH) : MainResult :=
  match locate_levelnames h rom with
  | .unsupported => .unsupportedLayout
  | .ok base =>
    match emit_all fallback rom h base with
    | some lines => .ok lines
    | none => .aborted

/-- Modelled from the spec (slot→LevelID closed form of §3, corrected at
the right endpoint): slot `1..36` maps to itself, slot `37..95` to
`0x100 + slot − 36`. -/
def levelid_spec (j : Nat) : Nat := if j ≤ 36 then j else 0x100 + j - 36

/-- Modelled from the spec (§4.5 escaping rules): the named escapes, the
`\u00XX` lowercase 4-digit form for the remaining control bytes
`0x00`-`0x1F`, and pass-through for everything else. -/
def spec_escape_byte (c : Nat) : List Nat :=
  if c = 0x22 then [0x5C, 0x22]
  else if c = 0x5C then [0x5C, 0x5C]
  else if c = 0x08 then [0x5C, 0x62]
  else if c = 0x0C then [0x5C, 0x66]
  else if c = 0x0A then [0x5C, 0x6E]
  else if c = 0x0D then [0x5C, 0x72]
  else if c = 0x09 then [0x5C, 0x74]
  else if c ≤ 0x1F then [0x5C, 0x75, 48, 48, hex_lower_digit (c / 16), hex_lower_digit (c % 16)]
  else [c]

/-- Modelled from the spec: removal of exactly the maximal run of trailing
space characters. -/
def rtrim_spec (s : List Nat) : List Nat :=
  (s.reverse.dropWhile (fun b => b = 32)).reverse

/-- C1 counterexample: the claim's sample value `f(95) = 0x138` is false on
the code — `j_to_levelid` maps slot 95 to `0x13B` (the closed form
`0x100 + 95 - 36` itself gives `0x13B`, so the claim is internally
inconsistent at its right endpoint). -/
theorem c1_counterexample_slot95 :
    j_to_levelid 95 = some 0x13B ∧ ¬ j_to_levelid 95 = some 0x138 := by decide

set_option maxRecDepth 4000 in
/-- C1 (amended): for every slot `1 ≤ j ≤ 95`, `j_to_levelid` is defined
(total) and equals the closed form `f(j) = j` for `j ≤ 36` and
`f(j) = 0x100 + j - 36` otherwise (so `f(1) = 1`, `f(36) = 0x24`,
`f(37) = 0x101`, `f(95) = 0x13B`), and the closed form is strictly
monotonic in the slot. -/
theorem c1_slot_to_levelid_closed_form :
    (∀ j : Nat, j ≤ 95 → 1 ≤ j → j_to_levelid (j : Int) = some ((levelid_spec j : Nat) : Int)) ∧
    (∀ j : Nat, j ≤ 95 → ∀ k : Nat, k ≤ 95 → 1 ≤ j → j < k → levelid_spec j < levelid_spec k) ∧
    j_to_levelid 1 = some 1 ∧ j_to_levelid 36 = some 0x24 ∧
    j_to_levelid 37 = some 0x101 ∧ j_to_levelid 95 = some 0x13B := by decide

/-- C1 witness: the closed form and monotonicity instantiated at slots 36
and 37. -/
theorem c1_slot_to_levelid_closed_form_witness :
    j_to_levelid (36 : Nat) = some ((levelid_spec 36 : Nat) : Int) ∧
    levelid_spec 36 < levelid_spec 37 :=
  ⟨c1_slot_to_levelid_closed_form.1 36 (by decide) (by decide),
   c1_slot_to_levelid_closed_form.2.1 36 (by decide) 37 (by decide) (by decide) (by decide)⟩

/-- C8 counterexample: slot `0` lies outside `1..95` but `j_to_levelid`
does not abort there — the C guard `j >= 0x0` accepts it and returns `0`. -/
theorem c8_counterexample_slot0 : j_to_levelid 0 = some 0 := by decide

/-- C8 (amended): `j_to_levelid` aborts (modelled as `none`) exactly for
slot values outside `0..95`: every negative slot and every slot above 95
hits `abort()`, while slot `0` is accepted and returns LevelID `0`. -/
theorem c8_levelid_abort_outside_range :
    (∀ j : Int, j < 0 ∨ 95 < j → j_to_levelid j = none) ∧ j_to_levelid 0 = some 0 := by
  constructor
  · intro j hj
    unfold j_to_levelid
    split_ifs with h1 h2 <;> first | rfl | omega
  · decide

/-- C8 witness: the abort cases instantiated at slots `-1` and `96`, and
the non-aborting slot `0`. -/
theorem c8_levelid_abort_outside_range_witness :
    j_to_levelid (-1) = none ∧ j_to_levelid 96 = none ∧ j_to_levelid 0 = some 0 :=
  ⟨c8_levelid_abort_outside_range.1 (-1) (Or.inl (by decide)),
   c8_levelid_abort_outside_range.1 96 (Or.inr (by decide)),
   c8_levelid_abort_outside_range.2⟩

/-- C5: whenever the LevelID has a vanilla-table entry, a case-insensitive
match of the trimmed name against it is emitted as the sentinel `"-"`, and
a non-match leaves the trimmed name unchanged; in particular for LevelID
`0x001` the trimmed name `"My Secret 1"` (case-insensitively equal to
`"MY SECRET 1"`) is replaced by `"-"`. -/
theorem c5_vanilla_sentinel_substitution :
    (∀ id : Int, ∀ xb v : List Nat, vanilla_name id = some v →
      (strcase_eq xb v = true → apply_vanilla id xb = [45]) ∧
      (strcase_eq xb v = false → apply_vanilla id xb = xb)) ∧
    apply_vanilla 1 (strB "My Secret 1") = [45] := by
  constructor
  · intro id xb v hv
    constructor <;> intro hc <;> simp [apply_vanilla, hv, hc]
  · decide

/-- C5 witness: the substitution and preservation branches instantiated at
LevelID `0x001`. -/
theorem c5_vanilla_sentinel_substitution_witness :
    vanilla_name 1 = some (strB "MY SECRET 1") ∧
    strcase_eq (strB "my secret 1") (strB "MY SECRET 1") = true ∧
    apply_vanilla 1 (strB "my secret 1") = [45] ∧
    strcase_eq (strB "HELLO") (strB "MY SECRET 1") = false ∧
    apply_vanilla 1 (strB "HELLO") = strB "HELLO" :=
  ⟨by decide, by decide,
   (c5_vanilla_sentinel_substitution.1 1 (strB "my secret 1") (strB "MY SECRET 1") (by decide)).1
     (by decide),
   by decide,
   (c5_vanilla_sentinel_substitution.1 1 (strB "HELLO") (strB "MY SECRET 1") (by decide)).2
     (by decide)⟩

unseal trim_trailing in
/-- C10: the vanilla table maps LevelID `0x112` (slot 54) to the empty
string rather than to "no default"; consequently an all-space record for
slot 54 decodes, trims to the empty string, matches, and is emitted as the
sentinel `"-"`. -/
theorem c10_levelid_112_empty_default :
    j_to_levelid 54 = some 0x112 ∧
    vanilla_name 0x112 = some [] ∧
    apply_vanilla 0x112 (trim_trailing (c_str (List.replicate 18 32))) = [45] := by decide

/-- Casting helper: `&` with the bank mask commutes with the `Nat → Int`
coercion. -/
theorem land_ffff_coe (n : Nat) : Int.land (n : Int) 0xFFFF = ((n &&& 0xFFFF : Nat) : Int) := rfl

/-- Casting helper: `&` with the in-bank offset mask commutes with the
coercion. -/
theorem land_7fff_coe (n : Nat) : Int.land (n : Int) 0x7FFF = ((n &&& 0x7FFF : Nat) : Int) := rfl

/-- Casting helper: `&` with the bank-number mask commutes with the
coercion. -/
theorem land_7f_coe (n : Nat) : Int.land (n : Int) 0x7F = ((n &&& 0x7F : Nat) : Int) := rfl

/-- Casting helper: bitwise or commutes with the coercion. -/
theorem lor_coe (m n : Nat) : Int.lor (m : Int) (n : Int) = ((m ||| n : Nat) : Int) := rfl

/-- Casting helper: the bank shift commutes with the coercion. -/
theorem shr16_coe (n : Nat) : ((n : Int) >>> (16 : Int)) = ((n >>> 16 : Nat) : Int) := rfl

/-- Casting helper: the offset shift commutes with the coercion. -/
theorem shl15_coe (n : Nat) : ((n : Int) <<< (15 : Int)) = ((n <<< 15 : Nat) : Int) := rfl

/-- Masking with `0xFFFF` before `0x7FFF` is the same as masking with
`0x7FFF` alone. -/
theorem nat_land_mask (a : Nat) : (a &&& 0xFFFF) &&& 0x7FFF = a &&& 0x7FFF := by
  rw [Nat.land_assoc]
  congr 1

/-- Integer version of `nat_land_mask` on coerced naturals. -/
theorem int_land_mask (a : Nat) :
    Int.land (Int.land (a : Int) 0xFFFF) 0x7FFF = Int.land (a : Int) 0x7FFF := by
  rw [land_ffff_coe, land_7fff_coe a, ← nat_land_mask a]
  exact rfl

/-- The LoROM translation of a non-negative address, expressed as a natural
number computation. -/
theorem lorom_coe (n : Nat) : lorom_to_offset (n : Int) =
    if n < 0x8000 then (((n >>> 16) * 0x8000 + (n &&& 0xFFFF &&& 0x7FFF) : Nat) : Int)
    else (((((n >>> 16) &&& 0x7F) <<< 15) ||| (n &&& 0xFFFF &&& 0x7FFF) : Nat) : Int) := by
  simp only [lorom_to_offset, shr16_coe, land_ffff_coe, land_7fff_coe, land_7f_coe,
    shl15_coe, lor_coe]
  have hc : ((n : Int) < 0x8000) ↔ n < 0x8000 := by exact_mod_cast Iff.rfl
  split_ifs with h1 h2 h3
  · push_cast; ring
  · exact absurd (hc.mp h1) h2
  · exact absurd (hc.mpr h3) h1
  · rfl

/-- The LoROM translation never produces a negative offset from a
non-negative address. -/
theorem lorom_nonneg (a : Int) (ha : 0 ≤ a) : 0 ≤ lorom_to_offset a := by
  obtain ⟨n, rfl⟩ := Int.eq_ofNat_of_zero_le ha
  rw [lorom_coe]
  split_ifs <;> exact Int.natCast_nonneg _

/-- C2: for every 24-bit logical address `a`, `lorom_to_offset` returns
`((a >> 16 & 0x7F) << 15) | (a & 0x7FFF)` when `a ≥ 0x8000`, and
`(a >> 16) * 0x8000 + (a & 0x7FFF)` when `a < 0x8000` (the header
adjustment is added later, by the callers). -/
theorem c2_lorom_translation (a : Nat) (ha : a < 2 ^ 24) :
    (0x8000 ≤ a → lorom_to_offset (a : Int) =
      Int.lor ((Int.land ((a : Int) >>> (16 : Int)) 0x7F) <<< (15 : Int))
        (Int.land (a : Int) 0x7FFF)) ∧
    (a < 0x8000 → lorom_to_offset (a : Int) =
      ((a : Int) >>> (16 : Int)) * 0x8000 + Int.land (a : Int) 0x7FFF) := by
  constructor
  · intro h8
    unfold lorom_to_offset
    have hnot : ¬ ((a : Int) < 0x8000) := by exact_mod_cast Nat.not_lt.mpr h8
    rw [if_neg hnot, int_land_mask]
  · intro h8
    unfold lorom_to_offset
    have hlt : ((a : Int) < 0x8000) := by exact_mod_cast h8
    rw [if_pos hlt, int_land_mask]

/-- C2 witness: the translation instantiated at the pointer address
`0x03BB57` (upper branch) and at `0x1234` (lower branch). -/
theorem c2_lorom_translation_witness :
    (0x03BB57 : Nat) < 2 ^ 24 ∧
    lorom_to_offset ((0x03BB57 : Nat) : Int) =
      Int.lor ((Int.land (((0x03BB57 : Nat) : Int) >>> (16 : Int)) 0x7F) <<< (15 : Int))
        (Int.land ((0x03BB57 : Nat) : Int) 0x7FFF) ∧
    lorom_to_offset ((0x1234 : Nat) : Int) =
      (((0x1234 : Nat) : Int) >>> (16 : Int)) * 0x8000 + Int.land ((0x1234 : Nat) : Int) 0x7FFF :=
  ⟨by decide,
   (c2_lorom_translation 0x03BB57 (by decide)).1 (by decide),
   (c2_lorom_translation 0x1234 (by decide)).2 (by decide)⟩

/-- C9: for every non-negative logical address the LoROM translation is
non-negative, so the `addr == -1` error branch of `read1` is unreachable:
`read1` agrees with its check-free variant on all handles, ROMs and modes. -/
theorem c9_read1_error_branch_unreachable (a : Int) (ha : 0 ≤ a) :
    0 ≤ lorom_to_offset a ∧
    ∀ (h : OpenRomH) (rom : List Nat) (d : Bool),
      read1 h rom a d = read1_unchecked h rom a d := by
  refine ⟨lorom_nonneg a ha, ?_⟩
  intro h rom d
  have hl := lorom_nonneg a ha
  simp only [read1, read1_unchecked]
  split_ifs with h1 h2 h2 <;> first | rfl | omega

/-- C9 witness: the agreement instantiated at address `0x049549` with a
LoROM, headered handle over a one-byte ROM. -/
theorem c9_read1_error_branch_unreachable_witness :
    (0 : Int) ≤ 0x049549 ∧
    0 ≤ lorom_to_offset 0x049549 ∧
    read1 ⟨0x200, 3⟩ [0x22] 0x049549 false = read1_unchecked ⟨0x200, 3⟩ [0x22] 0x049549 false :=
  ⟨by decide,
   (c9_read1_error_branch_unreachable 0x049549 (by decide)).1,
   (c9_read1_error_branch_unreachable 0x049549 (by decide)).2 ⟨0x200, 3⟩ [0x22] false⟩

/-- Unfolding lemma for `trim_trailing` when the loop guard holds. -/
theorem trim_step (s : List Nat) (h : 0 < s.length ∧ s.length < 19 ∧ s.getLast? = some 32) :
    trim_trailing s = trim_trailing s.dropLast := by
  conv_lhs => rw [trim_trailing]
  rw [if_pos h]

/-- Unfolding lemma for `trim_trailing` when the loop guard fails. -/
theorem trim_nostep (s : List Nat)
    (h : ¬ (0 < s.length ∧ s.length < 19 ∧ s.getLast? = some 32)) :
    trim_trailing s = s := by
  conv_lhs => rw [trim_trailing]
  rw [if_neg h]

/-- For buffers of length at most 18 the trim loop removes exactly the
maximal run of trailing spaces. -/
theorem trim_eq_rtrim (s : List Nat) (hs : s.length ≤ 18) :
    trim_trailing s = rtrim_spec s := by
  induction s using List.reverseRecOn with
  | nil => rw [trim_nostep [] (by simp), rtrim_spec]; simp
  | append_singleton t a ih =>
    by_cases ha : a = 32
    · subst ha
      rw [trim_step (t ++ [32]) ⟨by simp, by simp at hs ⊢; omega, by simp⟩,
          List.dropLast_concat, ih (by simp at hs; omega)]
      unfold rtrim_spec
      rw [List.reverse_append]
      simp [List.dropWhile_cons]
    · rw [trim_nostep (t ++ [a]) (by simp [ha])]
      unfold rtrim_spec
      rw [List.reverse_append]
      simp [List.dropWhile_cons, ha]

/-- C4: on every decoded buffer of length at most 18 the trim loop removes
exactly the maximal run of trailing spaces (the `< 19` guard never stops
it), trimming down to the empty string if everything is a space; in
particular `"FOO"` plus fifteen trailing spaces trims to `"FOO"` and
eighteen spaces trim to the empty string. -/
theorem c4_trailing_space_trim :
    (∀ s : List Nat, s.length ≤ 18 → trim_trailing s = rtrim_spec s) ∧
    trim_trailing (strB "FOO" ++ List.replicate 15 32) = strB "FOO" ∧
    trim_trailing (List.replicate 18 32) = [] := by
  refine ⟨trim_eq_rtrim, ?_, ?_⟩
  · rw [trim_eq_rtrim _ (by decide)]
    decide
  · rw [trim_eq_rtrim _ (by decide)]
    decide

/-- C4 witness: the trim characterisation instantiated at a buffer ending
in one space. -/
theorem c4_trailing_space_trim_witness :
    ([70, 32] : List Nat).length ≤ 18 ∧ trim_trailing [70, 32] = rtrim_spec [70, 32] :=
  ⟨by decide, c4_trailing_space_trim.1 [70, 32] (by decide)⟩

/-- Buffer-accounting helper: overwriting the head of a suffix keeps its
length. -/
theorem set0_length (l : List Nat) : (set0 l).length = l.length := by
  cases l <;> rfl

/-- A named escape sequence is two bytes long. -/
theorem esc_byte_len_named (c : Nat)
    (h : c = 0x22 ∨ c = 0x5C ∨ c = 0x08 ∨ c = 0x0C ∨ c = 0x0A ∨ c = 0x0D ∨ c = 0x09) :
    (esc_byte c).length = 2 := by
  rcases h with h | h | h | h | h | h | h <;> subst h <;> rfl

/-- A `\u00xx` escape sequence is six bytes long. -/
theorem esc_byte_len_ctrl (c : Nat)
    (hn : ¬ (c = 0x22 ∨ c = 0x5C ∨ c = 0x08 ∨ c = 0x0C ∨ c = 0x0A ∨ c = 0x0D ∨ c = 0x09))
    (hc : c ≤ 0x1F) : (esc_byte c).length = 6 := by
  push_neg at hn
  obtain ⟨n1, n2, n3, n4, n5, n6, n7⟩ := hn
  simp [esc_byte, n1, n2, n3, n4, n5, n6, n7, hc, hex4_lower]

/-- A pass-through byte contributes one byte. -/
theorem esc_byte_len_plain (c : Nat)
    (hn : ¬ (c = 0x22 ∨ c = 0x5C ∨ c = 0x08 ∨ c = 0x0C ∨ c = 0x0A ∨ c = 0x0D ∨ c = 0x09))
    (hc : ¬ c ≤ 0x1F) : (esc_byte c).length = 1 := by
  push_neg at hn
  obtain ⟨n1, n2, n3, n4, n5, n6, n7⟩ := hn
  simp [esc_byte, n1, n2, n3, n4, n5, n6, n7, hc]

/-- When the escape loop succeeds, the buffer holds the concatenation of
the per-byte escape sequences followed by a NUL terminator. -/
theorem esc_go_success (n : Nat) (inp : List Nat) :
    ∀ (done rest : List Nat) (r : Int) (b : List Nat),
      done.length + rest.length = n → done.length < n →
      esc_go n inp done rest = (r, b) → 0 ≤ r →
      ∃ t, b = done ++ inp.flatMap esc_byte ++ 0 :: t := by
  induction inp with
  | nil =>
    intro done rest r b hsum hlt heq _
    have hrest : rest ≠ [] := by
      intro hr
      subst hr
      simp at hsum
      omega
    obtain ⟨x, t, hxt⟩ : ∃ x t, rest = x :: t := by
      cases rest with
      | nil => exact absurd rfl hrest
      | cons x t => exact ⟨x, t, rfl⟩
    subst hxt
    simp only [esc_go, set0] at heq
    cases heq
    exact ⟨t, by simp⟩
  | cons c inp ih =>
    intro done rest r b hsum hlt heq hr
    simp only [esc_go] at heq
    split_ifs at heq with h1 h2 h3 h4 h5
    · exact absurd (congrArg Prod.fst heq).symm (by simp; omega)
    · exact absurd (congrArg Prod.fst heq).symm (by simp; omega)
    · have hlen := esc_byte_len_named c h2
      obtain ⟨t, ht⟩ := ih (done ++ esc_byte c) (rest.drop 2) r b
        (by simp [hlen]; omega) (by simp [hlen]; omega) heq hr
      refine ⟨t, ?_⟩
      rw [ht]
      simp
    · exact absurd (congrArg Prod.fst heq).symm (by simp; omega)
    · have hlen := esc_byte_len_ctrl c h2 h4
      obtain ⟨t, ht⟩ := ih (done ++ esc_byte c) (set0 (rest.drop 6)) r b
        (by simp [hlen, set0_length]; omega) (by simp [hlen]; omega) heq hr
      refine ⟨t, ?_⟩
      rw [ht]
      simp
    · have hlen := esc_byte_len_plain c h2 h4
      obtain ⟨t, ht⟩ := ih (done ++ esc_byte c) (rest.drop 1) r b
        (by simp [hlen]; omega) (by simp [hlen]; omega) heq hr
      refine ⟨t, ?_⟩
      rw [ht]
      simp

/-- The per-byte escape sequences the loop produces coincide with the
specification's description of them. -/
theorem esc_byte_eq_spec : esc_byte = spec_escape_byte := by
  funext c
  unfold esc_byte spec_escape_byte
  split_ifs with h1 h2 h3 h4 h5 h6 h7 h8 <;> try rfl
  have e1 : c / 4096 % 16 = 0 := by omega
  have e2 : c / 256 % 16 = 0 := by omega
  have e3 : c / 16 % 16 = c / 16 := by omega
  simp [hex4_lower, e1, e2, e3, hex_lower_digit]

/-- Hexadecimal digit bytes are never NUL. -/
theorem hex_lower_digit_ne_zero (d : Nat) : hex_lower_digit d ≠ 0 := by
  unfold hex_lower_digit
  split_ifs <;> omega

/-- No escape sequence contains a NUL byte. -/
theorem esc_byte_ne_zero (c : Nat) : ∀ x ∈ esc_byte c, x ≠ 0 := by
  intro x hx
  unfold esc_byte at hx
  split_ifs at hx with h1 h2 h3 h4 h5 h6 h7 h8
  case _ | _ | _ | _ | _ | _ | _ => simp at hx; omega
  · simp [hex4_lower] at hx
    rcases hx with h | h | h | h | h | h <;>
      first
        | omega
        | (subst h; exact hex_lower_digit_ne_zero _)
  · simp at hx
    omega

/-- Reading a C string back from a buffer that holds NUL-free content plus
a NUL terminator gives exactly the content. -/
theorem takeWhile_no_zero (l t : List Nat) (hl : ∀ x ∈ l, x ≠ 0) :
    c_str (l ++ 0 :: t) = l := by
  induction l with
  | nil => simp [c_str]
  | cons x xs ih =>
    have hx : x ≠ 0 := hl x (by simp)
    have hxs : ∀ y ∈ xs, y ≠ 0 := fun y hy => hl y (by simp [hy])
    simp only [c_str] at ih ⊢
    rw [List.cons_append, List.takeWhile_cons]
    have hpx : decide (x ≠ 0) = true := by simp [hx]
    simp only [hpx, if_true]
    rw [ih hxs]

/-- Concatenated escape sequences contain no NUL byte. -/
theorem flatMap_esc_ne_zero (inp : List Nat) : ∀ x ∈ inp.flatMap esc_byte, x ≠ 0 := by
  intro x hx
  simp only [List.mem_flatMap] at hx
  obtain ⟨c, _, hc⟩ := hx
  exact esc_byte_ne_zero c x hc

/-- C3: whenever `escape_json_string_static` succeeds (the input fits the
output buffer), the string left in the buffer is the concatenation, over
the input bytes, of the spec's per-byte escapes: `"` → `\"`, `\` → `\\`,
backspace → `\b`, form feed → `\f`, newline → `\n`, carriage return →
`\r`, tab → `\t`, any other byte `0x00`-`0x1F` → `\u00XX` in lowercase
4-digit hex, and every other byte unchanged. -/
theorem c3_json_escaping (input buf : List Nat) (r : Int) (out : List Nat)
    (hesc : escape_json_string_static input buf = (r, out)) (hr : 0 ≤ r) :
    c_str out = input.flatMap spec_escape_byte := by
  unfold escape_json_string_static at hesc
  split_ifs at hesc with h0
  · cases hesc; omega
  · obtain ⟨t, ht⟩ := esc_go_success buf.length input [] buf r out
      (by simp) (by simpa using Nat.pos_of_ne_zero h0) hesc hr
    rw [ht]
    simp only [List.nil_append]
    rw [takeWhile_no_zero _ _ (flatMap_esc_ne_zero input), esc_byte_eq_spec]

/-- C3 witness: escaping `"F\nA"` in a ten-byte buffer. -/
theorem c3_json_escaping_witness :
    escape_json_string_static [70, 10, 65] (List.replicate 10 0) =
      (4, [70, 92, 110, 65, 0, 0, 0, 0, 0, 0]) ∧
    c_str [70, 92, 110, 65, 0, 0, 0, 0, 0, 0] = List.flatMap [70, 10, 65] spec_escape_byte :=
  ⟨by decide,
   c3_json_escaping [70, 10, 65] (List.replicate 10 0) 4 [70, 92, 110, 65, 0, 0, 0, 0, 0, 0]
     (by decide) (by decide)⟩

/-- On the slots `1..95` that `main` iterates over, `j_to_levelid` succeeds
and returns the closed-form LevelID. -/
theorem j_to_levelid_slot (j : Nat) (h1 : 1 ≤ j) (h2 : j ≤ 95) :
    j_to_levelid (j : Int) = some ((levelid_spec j : Nat) : Int) := by
  rcases Nat.lt_or_ge j 37 with h | h
  · rw [j_to_levelid, if_pos ⟨by positivity, by exact_mod_cast Nat.le_of_lt_succ h⟩,
        levelid_spec, if_pos (by omega)]
  · rw [j_to_levelid,
        if_neg (by omega),
        if_pos ⟨by omega, by omega⟩,
        levelid_spec, if_neg (by omega)]
    congr 1
    omega

/-- The natural-width uppercase hex form of `n < 16^k` has at most `k`
digits. -/
theorem toHexU_len_le (k : Nat) : ∀ n, n < 16 ^ k → 1 ≤ k → (toHexU n).length ≤ k := by
  induction k with
  | zero => intro n _ hk; omega
  | succ k ih =>
    intro n h _
    unfold toHexU
    split_ifs with h16
    · simp
    · have hdiv : n / 16 < 16 ^ k := by
        apply Nat.div_lt_of_lt_mul
        rw [← pow_succ']
        exact h
      rcases Nat.eq_zero_or_pos k with rfl | hk1
      · exfalso
        norm_num at h
        omega
      · have := ih (n / 16) hdiv hk1
        simp
        omega

/-- Every byte of the natural-width uppercase hex form is an ASCII digit
`0`-`9` or an uppercase letter `A`-`F`. -/
theorem toHexU_mem (n : Nat) : ∀ c ∈ toHexU n, (48 ≤ c ∧ c ≤ 57) ∨ (65 ≤ c ∧ c ≤ 70) := by
  induction n using Nat.strong_induction_on with
  | _ n ih =>
    intro c hc
    unfold toHexU at hc
    split_ifs at hc with h16
    · simp at hc
      subst hc
      unfold hex_upper_digit
      split_ifs <;> omega
    · simp at hc
      rcases hc with hc | hc
      · exact ih (n / 16) (by omega) c hc
      · subst hc
        unfold hex_upper_digit
        split_ifs <;> omega

/-- The `%.3X` form of a value below `0x1000` is exactly three bytes. -/
theorem hex3X_len (n : Nat) (h : n < 4096) : (hex3X n).length = 3 := by
  have h3 := toHexU_len_le 3 n (by norm_num; omega) (by norm_num)
  unfold hex3X
  simp
  omega

/-- Every byte of the `%.3X` form is an ASCII digit or uppercase hex
letter. -/
theorem hex3X_mem (n : Nat) : ∀ c ∈ hex3X n, (48 ≤ c ∧ c ≤ 57) ∨ (65 ≤ c ∧ c ≤ 70) := by
  intro c hc
  unfold hex3X at hc
  rw [List.mem_append] at hc
  rcases hc with hc | hc
  · rw [List.mem_replicate] at hc
    omega
  · exact toHexU_mem n c hc

/-- The emission fold over any list of in-range slots succeeds and appends
one line per slot, whose key is the 3-hex-digit LevelID and whose comma
flag is set except at slot 95. -/
theorem emit_fold (fb : Int → Nat) (rom : List Nat) (h : OpenRomH) (base : Int) :
    ∀ (L : List Nat), (∀ j ∈ L, 1 ≤ j ∧ j ≤ 95) →
    ∀ (x0 : List Nat) (acc : List EmitLine),
      ∃ (x0f : List Nat) (res : List EmitLine),
        List.foldlM (emit_step fb rom h base) (x0, acc) L = some (x0f, res) ∧
        res.map EmitLine.key = acc.map EmitLine.key ++ L.map (fun j => hex3X (levelid_spec j)) ∧
        res.map EmitLine.comma = acc.map EmitLine.comma ++ L.map (fun j => decide (j ≠ 95)) ∧
        res.length = acc.length + L.length := by
  intro L
  induction L with
  | nil =>
    intro _ x0 acc
    exact ⟨x0, acc, rfl, by simp, by simp, by simp⟩
  | cons j L ih =>
    intro hL x0 acc
    have hj := hL j (by simp)
    obtain ⟨x0n, nm, hstep⟩ : ∃ x0n nm, emit_step fb rom h base (x0, acc) j =
        some (x0n, acc ++ [⟨hex3X (levelid_spec j), nm, j ≠ 95⟩]) := by
      unfold emit_step
      rw [j_to_levelid_slot j hj.1 hj.2]
      exact ⟨_, _, rfl⟩
    obtain ⟨x0f, res, hfold, hkeys, hcommas, hlen⟩ :=
      ih (fun i hi => hL i (by simp [hi])) x0n
        (acc ++ [⟨hex3X (levelid_spec j), nm, j ≠ 95⟩])
    refine ⟨x0f, res, ?_, ?_, ?_, ?_⟩
    · rw [List.foldlM_cons, hstep]
      simpa using hfold
    · rw [hkeys]; simp
    · rw [hcommas]; simp
    · rw [hlen]; simp; omega

/-- C6: for every ROM, handle, fallback table and base address, the
emission loop produces exactly 95 entries, in slot order 1 through 95;
the `k`-th entry is keyed by the LevelID of slot `k+1` rendered by `%.3X`
as exactly three uppercase hexadecimal digits with no prefix, and carries
a trailing comma except for the 95th (slot-95) entry. -/
theorem c6_emission_order_and_format (fb : Int → Nat) (rom : List Nat) (h : OpenRomH)
    (base : Int) :
    ∃ lines : List EmitLine,
      emit_all fb rom h base = some lines ∧
      lines.length = 95 ∧
      lines.map EmitLine.key =
        ((List.range 95).map (· + 1)).map (fun j => hex3X (levelid_spec j)) ∧
      lines.map EmitLine.comma =
        ((List.range 95).map (· + 1)).map (fun j => decide (j ≠ 95)) ∧
      (∀ j : Nat, 1 ≤ j → j ≤ 95 →
        (hex3X (levelid_spec j)).length = 3 ∧
        ∀ c ∈ hex3X (levelid_spec j), (48 ≤ c ∧ c ≤ 57) ∨ (65 ≤ c ∧ c ≤ 70)) := by
  obtain ⟨x0f, res, hfold, hkeys, hcommas, hlen⟩ :=
    emit_fold fb rom h base ((List.range 95).map (· + 1))
      (by intro j hj; simp at hj; omega) (List.replicate 100 0) []
  refine ⟨res, ?_, ?_, ?_, ?_, ?_⟩
  · unfold emit_all
    rw [hfold]
    rfl
  · simpa using hlen
  · simpa using hkeys
  · simpa using hcommas
  · intro j _ h95
    constructor
    · apply hex3X_len
      unfold levelid_spec
      split_ifs <;> omega
    · exact hex3X_mem _

/-- Bytes successfully read from a well-formed ROM are below 256. -/
theorem rom_byte_lt (rom : List Nat) (hwf : ∀ b ∈ rom, b < 256) (off : Int) (b : Nat)
    (hb : rom_byte? rom off = some b) : b < 256 := by
  unfold rom_byte? at hb
  split_ifs at hb with hcond
  · cases hb
    exact hwf _ (rom.get_mem _ _)

/-- Masking a byte with `0xFF` is the identity. -/
theorem and_255_eq (b : Nat) (hb : b < 256) : b &&& 255 = b := by
  rw [show (255 : Nat) = 2 ^ 8 - 1 from rfl]
  exact Nat.and_pow_two_sub_one_of_lt_two_pow hb

/-- Rotation helper for bitwise or. -/
theorem lor_rot (x y z : Nat) : (x ||| y) ||| z = (z ||| y) ||| x := by
  rw [Nat.lor_assoc, Nat.lor_comm y z, Nat.lor_comm x (z ||| y)]

/-- C7: if the byte read (through the handle's translation) at logical
address `0x049549` equals `0x22`, the level-name table base is the value
`read3` returns for logical address `0x03BB57`, which composes the three
bytes found there as the little-endian value `b0 | (b1 << 8) | (b2 << 16)`;
otherwise the program takes the `exit(1)` path, reporting an unsupported
layout and emitting no level names. -/
theorem c7_locate_levelnames (fb : Int → Nat) (rom : List Nat) (h : OpenRomH)
    (hwf : ∀ b ∈ rom, b < 256) :
    (read1 h rom 0x049549 false ≠ 0x22 →
      locate_levelnames h rom = LocateResult.unsupported ∧
      level_reader_main fb rom h = MainResult.unsupportedLayout) ∧
    (read1 h rom 0x049549 false = 0x22 →
      locate_levelnames h rom = LocateResult.ok (read3 h rom 0x03BB57 false) ∧
      ∀ b0 b1 b2 : Nat,
        rom_byte? rom (read3_addr h 0x03BB57 false) = some b0 →
        rom_byte? rom (read3_addr h 0x03BB57 false + 1) = some b1 →
        rom_byte? rom (read3_addr h 0x03BB57 false + 2) = some b2 →
        read3 h rom 0x03BB57 false = ((b0 ||| (b1 <<< 8) ||| (b2 <<< 16) : Nat) : Int)) := by
  constructor
  · intro hne
    have hloc : locate_levelnames h rom = LocateResult.unsupported := by
      unfold locate_levelnames
      rw [if_neg hne]
    exact ⟨hloc, by simp [level_reader_main, hloc]⟩
  · intro he
    have hloc : locate_levelnames h rom = LocateResult.ok (read3 h rom 0x03BB57 false) := by
      unfold locate_levelnames
      rw [if_pos he]
    refine ⟨hloc, ?_⟩
    intro b0 b1 b2 h0 h1 h2
    have e0 := and_255_eq b0 (rom_byte_lt rom hwf _ b0 h0)
    have e1 := and_255_eq b1 (rom_byte_lt rom hwf _ b1 h1)
    have e2 := and_255_eq b2 (rom_byte_lt rom hwf _ b2 h2)
    simp only [read3, h0, h1, h2, e0, e1, e2]
    rw [lor_rot (b2 <<< 16) (b1 <<< 8) b0]

/-- C7 witness: over the empty ROM the signature byte read fails to match,
and the program reports the unsupported layout without emitting lines. -/
theorem c7_locate_levelnames_witness :
    (∀ b ∈ ([] : List Nat), b < 256) ∧
    read1 ⟨0, 0⟩ [] 0x049549 false ≠ 0x22 ∧
    locate_levelnames ⟨0, 0⟩ [] = LocateResult.unsupported ∧
    level_reader_main (fun _ => 32) [] ⟨0, 0⟩ = MainResult.unsupportedLayout :=
  ⟨by simp, by decide,
   ((c7_locate_levelnames (fun _ => 32) [] ⟨0, 0⟩ (by simp)).1 (by decide)).1,
   ((c7_locate_levelnames (fun _ => 32) [] ⟨0, 0⟩ (by simp)).1 (by decide)).2⟩
